import Mathlib

/-!
Verification development for the VOD streaming proxy of Dispatcharr
(`apps/proxy/vod_proxy/views.py`), shallowly embedded in Lean.

Strings are modelled as `String` or `List Char`; Python `None` results are
modelled with `Option`; exceptions that a function catches internally are
modelled by `Option`-valued sub-computations.  The fragment of Python's
regular-expression engine that `_transform_url` exercises is embedded
executably for fixed-length patterns (literal characters and the `.`
wildcard, with at most one capture group): on this fragment the embedded
substitution agrees with `re.sub` (leftmost, non-overlapping matches,
template backreference validation up front, `$N` translated to a native
backreference by `safeReplacePattern`).
-/

namespace Dispatcharr

/-- Decimal value of a list of digit characters (used both by the template
backreference parser and by the session-id digit round-trip proofs). -/
def parseDec (ds : List Char) : Nat :=
  ds.foldl (fun a c => a * 10 + (c.toNat - 48)) 0

/-- Longest leading run of digit characters, and the remainder. -/
def takeDigits : List Char → List Char × List Char
  | [] => ([], [])
  | c :: cs =>
    if c.isDigit then
      let p := takeDigits cs
      (c :: p.1, p.2)
    else ([], c :: cs)

/-- One atom of a search pattern: a literal character or the `.` wildcard
(which, as in Python, matches any character except a newline). -/
inductive RAtom
  | lit (c : Char)
  | dot
deriving DecidableEq, Repr

def matchAtom : RAtom → Char → Bool
  | .lit c, d => decide (c = d)
  | .dot, d => decide (d ≠ '\n')

/-- The atoms match an initial segment of the input. -/
def matchPre : List RAtom → List Char → Bool
  | [], _ => true
  | _ :: _, [] => false
  | a :: as, c :: cs => matchAtom a c && matchPre as cs

/-- The atoms match the input exactly (same length, pointwise). -/
def atomsExact : List RAtom → List Char → Bool
  | [], [] => true
  | [], _ :: _ => false
  | _ :: _, [] => false
  | a :: as, c :: cs => matchAtom a c && atomsExact as cs

/-- A compiled search pattern of the embedded fragment: a fixed sequence of
atoms with at most one capture group somewhere in the middle. -/
structure RPattern where
  pre : List RAtom
  grp : Option (List RAtom)
  post : List RAtom
deriving DecidableEq, Repr

def grpAtoms (p : RPattern) : List RAtom := p.grp.getD []

def patAtoms (p : RPattern) : List RAtom := p.pre ++ grpAtoms p ++ p.post

def patLen (p : RPattern) : Nat := (patAtoms p).length

def numGroups (p : RPattern) : Nat := if p.grp.isSome then 1 else 0

/-- The substring captured by the (single) group when the pattern matches at
the head of `s`. -/
def capAt (p : RPattern) (s : List Char) : List Char :=
  (s.drop p.pre.length).take (grpAtoms p).length

/-- Template validity: every native backreference names an existing group.
Python's `re.sub` validates the template before looking for matches and
raises on an invalid group reference.  Fuelled structural recursion; the
fuel-exhausted arm is unreachable when the fuel is the template length. -/
def templOkF (g : Nat) : Nat → List Char → Bool
  | _, [] => true
  | 0, _ => true
  | f + 1, c :: cs =>
    if c = '\\' then
      match takeDigits cs with
      | ([], _) => templOkF g f cs
      | (ds, rest) => decide (1 ≤ parseDec ds ∧ parseDec ds ≤ g) && templOkF g f rest
    else templOkF g f cs

def templOk (g : Nat) (tmpl : List Char) : Bool := templOkF g tmpl.length tmpl

/-- Expand a validated replacement template for one match, substituting the
capture for the backreference `\1`. -/
def expandRunF (cap : List Char) : Nat → List Char → List Char
  | _, [] => []
  | 0, s => s
  | f + 1, c :: cs =>
    if c = '\\' then
      match takeDigits cs with
      | ([], _) => '\\' :: expandRunF cap f cs
      | (ds, rest) => (if parseDec ds = 1 then cap else []) ++ expandRunF cap f rest
    else c :: expandRunF cap f cs

def expandRun (cap : List Char) (tmpl : List Char) : List Char :=
  expandRunF cap tmpl.length tmpl

/-- The scanning loop of `re.sub`: leftmost, non-overlapping matches, each
replaced by the expanded template; a zero-width pattern also matches between
characters and at the end, as in Python. -/
def subGoF (p : RPattern) (tmpl : List Char) : Nat → List Char → List Char
  | _, [] => if patLen p = 0 then expandRun (capAt p []) tmpl else []
  | 0, s => s
  | f + 1, c :: cs =>
    if matchPre (patAtoms p) (c :: cs) then
      if patLen p = 0 then
        expandRun (capAt p (c :: cs)) tmpl ++ c :: subGoF p tmpl f cs
      else
        expandRun (capAt p (c :: cs)) tmpl ++ subGoF p tmpl f (cs.drop (patLen p - 1))
    else c :: subGoF p tmpl f cs

/-- `re.sub(pattern, template, s)` on the embedded fragment; `none` models
the `re.error` raised for a template referencing a nonexistent group. -/
def reSub (p : RPattern) (tmpl : List Char) (s : List Char) : Option (List Char) :=
  if templOk (numGroups p) tmpl then some (subGoF p tmpl s.length s) else none

/-- `re.sub(r'\$(\d+)', r'\\\1', replace_pattern)`: rewrite every `$N` of the
profile's replace pattern into the engine's native `\N` backreference. -/
def safeReplF : Nat → List Char → List Char
  | _, [] => []
  | 0, s => s
  | f + 1, c :: cs =>
    if c = '$' then
      match takeDigits cs with
      | ([], _) => '$' :: safeReplF f cs
      | (ds, rest) => '\\' :: (ds ++ safeReplF f rest)
    else c :: safeReplF f cs

def safeReplacePattern (s : List Char) : List Char := safeReplF s.length s

/-- The `search_pattern` string of a profile, as `_transform_url` sees it:
empty (falsy), non-empty but failing to compile, or compiling to a pattern
of the embedded fragment. -/
inductive PatternStr
  | emptyPat
  | malformedPat
  | goodPat (p : RPattern)
deriving DecidableEq, Repr

/-- The fields of an `M3UAccountProfile` row that the streaming view reads. -/
structure ProfileRec where
  id : Nat
  is_active : Bool
  is_default : Bool
  max_streams : Nat
  search_pattern : PatternStr
  replace_pattern : List Char
deriving DecidableEq, Repr

/-- `VODStreamView._transform_url`: returns `none` exactly where Python
returns `None` (falsy input URL); a compile or substitution error inside the
`try` body degrades to the original URL. -/
def transform_url (original_url : List Char) (m3u_profile : ProfileRec) :
    Option (List Char) :=
  if original_url = [] then none
  else
    let safe_replace_pattern := safeReplacePattern m3u_profile.replace_pattern
    match m3u_profile.search_pattern, m3u_profile.replace_pattern with
    | _, [] => some original_url
    | .emptyPat, _ => some original_url
    | .malformedPat, _ => some original_url
    | .goodPat p, _ =>
      match reSub p safe_replace_pattern original_url with
      | some transformed => some transformed
      | none => some original_url

/-- An `M3UAccount`'s profiles, in the order the profile queryset yields them.
Modelled from the spec: the `M3UAccountProfile` model (its `Meta` ordering is
outside the snapshot) lists an account's profiles in their configured
priority order, which is the order of this list. -/
structure Account where
  profiles : List ProfileRec
deriving DecidableEq, Repr

/-- The reachable shared store: `counts i` is the live value of the
`profile_connections:i` counter (a missing key reads as 0 in the code and is
modelled as a 0 entry here). -/
structure RedisState where
  counts : Nat → Nat

/-- What the `vod_persistent_connection:{session_id}` hash says about the
session: no usable hash (no session id, or Redis has no record), a record
without the `m3u_profile_id` field, a record whose field fails `int()`, or a
record naming profile id `i`. -/
inductive SessInfo
  | noSession
  | noProfileField
  | badProfileField
  | storedProfile (i : Nat)
deriving DecidableEq, Repr

/-- `M3UAccountProfile.objects.get(id=i, m3u_account=acct, is_active=True)`,
with `DoesNotExist` modelled as `none` (profile ids are unique rows). -/
def findProfile (acct : Account) (i : Nat) : Option ProfileRec :=
  acct.profiles.find? (fun p => p.id == i && p.is_active)

/-- The capacity test of `_get_m3u_profile`:
`profile.max_streams == 0 or current_connections < profile.max_streams`. -/
def hasCapacity (st : RedisState) (p : ProfileRec) : Bool :=
  p.max_streams == 0 || decide (st.counts p.id < p.max_streams)

/-- The session-affinity block of `_get_m3u_profile`: an existing session
record naming a profile that still resolves returns that profile together
with its live counter, with no capacity check; every other outcome of the
block falls through to fresh selection. -/
def sessionLookup (st : RedisState) (acct : Account) :
    SessInfo → Option (ProfileRec × Nat)
  | .storedProfile i =>
    (findProfile acct i).map (fun p => (p, st.counts p.id))
  | _ => none

/-- The default-active profile lookup used by automatic selection. -/
def defaultProfile (acct : Account) : Option ProfileRec :=
  (acct.profiles.filter (fun p => p.is_active)).find? (fun p => p.is_default)

/-- The `for profile in profiles:` loop of `_get_m3u_profile`: first profile
with an available slot, together with its live counter. -/
def selectLoop (st : RedisState) : List ProfileRec → Option (ProfileRec × Nat)
  | [] => none
  | p :: rest =>
    if hasCapacity st p then some (p, st.counts p.id) else selectLoop st rest

/-- Automatic selection of `_get_m3u_profile`: requires a default active
profile (else `None`), then scans `[default] + other active non-default
profiles` for spare capacity. -/
def autoSelect (st : RedisState) (acct : Account) : Option (ProfileRec × Nat) :=
  match defaultProfile acct with
  | none => none
  | some dp =>
    selectLoop st
      (dp :: (acct.profiles.filter (fun p => p.is_active)).filter
        (fun p => !p.is_default))

/-- `VODStreamView._get_m3u_profile`.  `redis = none` models
`RedisClient.get_client()` returning no client; `profile_id` the requested
profile id; `sess` the session-affinity information read from the store. -/
def getM3UProfile (redis : Option RedisState) (acct : Account)
    (profile_id : Option Nat) (sess : SessInfo) : Option (ProfileRec × Nat) :=
  match redis with
  | none =>
    (acct.profiles.find? (fun p => p.is_active && p.is_default)).map
      (fun p => (p, 0))
  | some st =>
    match sessionLookup st acct sess with
    | some r => some r
    | none =>
      let fromRequested :=
        match profile_id with
        | some i =>
          match findProfile acct i with
          | some p =>
            if hasCapacity st p then some (p, st.counts p.id) else none
          | none => none
        | none => none
      match fromRequested with
      | some r => some r
      | none => autoSelect st acct

/-- Modelled from the spec (as amended): the candidate order of automatic
selection, `[default profile] ++ other active profiles in configured
priority order`, empty when the account has no default active profile. -/
def specCandidates (acct : Account) : List ProfileRec :=
  match (acct.profiles.filter (fun p => p.is_active)).find?
      (fun p => p.is_default) with
  | some d =>
    d :: (acct.profiles.filter (fun p => p.is_active)).filter
      (fun p => !p.is_default)
  | none => []

/-- Modelled from the spec (as amended): automatic selection returns the
first candidate with spare capacity, paired with its live counter. -/
def specAuto (st : RedisState) (acct : Account) : Option (ProfileRec × Nat) :=
  ((specCandidates acct).find? (fun p => hasCapacity st p)).map
    (fun p => (p, st.counts p.id))

/-- Modelled from the spec (as amended): fresh selection with no applicable
session affinity — a requested profile that resolves and has spare capacity
is taken, anything else falls through to automatic selection. -/
def specSelect (st : RedisState) (acct : Account) (requested : Option Nat) :
    Option (ProfileRec × Nat) :=
  match requested with
  | some i =>
    match findProfile acct i with
    | some p =>
      if hasCapacity st p then some (p, st.counts p.id) else specAuto st acct
    | none => specAuto st acct
  | none => specAuto st acct

/-- One row of `content_obj.m3u_relations`, together with the fields of its
`m3u_account` that `_get_content_and_relation` reads and the data the later
pipeline stages need (`stream_url` is the value of `get_stream_url()`,
`account` the account's profiles for selection). -/
structure Relation where
  rel_id : Nat
  stream_id : String
  account_id : Nat
  account_priority : Int
  account_active : Bool
  stream_url : Option String
  account : Account
deriving DecidableEq, Repr

/-- The addressed content object: whether the id resolves at all (for a
series, also that a first episode exists), and its relation rows.  The three
content kinds run the same selection code and are collapsed. -/
structure ContentDb where
  content_found : Bool
  relations : List Relation
deriving DecidableEq, Repr

/-- `order_by('-m3u_account__priority', 'id').first()`: `a` sorts before `b`
on higher account priority, ties on lower row id. -/
def relBefore (a b : Relation) : Bool :=
  decide (b.account_priority < a.account_priority) ||
    (a.account_priority == b.account_priority && decide (a.rel_id < b.rel_id))

def pickBest : List Relation → Option Relation
  | [] => none
  | r :: rs =>
    match pickBest rs with
    | none => some r
    | some b => if relBefore b r then some b else some r

/-- `VODStreamView._get_content_and_relation`, returning the chosen relation
(`none` covers both a missing content object — `get_object_or_404` raising
inside the `try` — and no active-account relation). -/
def getContentRelation (db : ContentDb) (preferred_m3u_account_id : Option Nat)
    (preferred_stream_id : Option String) : Option Relation :=
  if !db.content_found then none
  else
    let rq : List Relation := db.relations.filter (fun r => r.account_active)
    let byStream :=
      match preferred_stream_id with
      | some sid => rq.find? (fun (r : Relation) => r.stream_id == sid)
      | none => none
    match byStream with
    | some r => some r
    | none =>
      let byAcct :=
        match preferred_m3u_account_id with
        | some aid => rq.find? (fun (r : Relation) => r.account_id == aid)
        | none => none
      match byAcct with
      | some r => some r
      | none => pickBest rq

/-- Python `s.startswith(pre)` over character lists. -/
def startsWithChars : List Char → List Char → Bool
  | [], _ => true
  | _ :: _, [] => false
  | a :: as, b :: bs => a == b && startsWithChars as bs

/-- The outcome of `VODStreamView.get`, one constructor per return site. -/
inductive GetResult
  | redirect (location : String)
  | notFound
  | noStreamUrl
  | noProfile
  | invalidUrl (finalUrl : String)
  | streams (finalUrl : String) (profile : ProfileRec) (count : Nat)
deriving DecidableEq, Repr

/-- The HTTP status each outcome is surfaced with. -/
def statusCode : GetResult → Nat
  | .redirect _ => 301
  | .notFound => 404
  | .noStreamUrl => 503
  | .noProfile => 503
  | .invalidUrl _ => 500
  | .streams _ _ _ => 200

/-- Python `path.rstrip('/')`. -/
def rstripSlashL (s : List Char) : List Char :=
  (s.reverse.dropWhile (fun c => c == '/')).reverse

/-- Python `path.split('/')`. -/
def splitSlash : List Char → List (List Char)
  | [] => [[]]
  | c :: cs =>
    if c = '/' then [] :: splitSlash cs
    else
      match splitSlash cs with
      | [] => [[c]]
      | h :: t => (c :: h) :: t

/-- Python `'/'.join(parts)`. -/
def joinSlash : List (List Char) → List Char
  | [] => []
  | [x] => x
  | x :: xs => x ++ '/' :: joinSlash xs

/-- `urlencode` of the preserved query parameters (values taken as already
encoded opaque tokens, keys unique as in `dict(request.GET)`). -/
def encodeQuery : List (String × String) → String
  | [] => ""
  | [(k, v)] => k ++ "=" ++ v
  | (k, v) :: rest => k ++ "=" ++ v ++ "&" ++ encodeQuery rest

/-- `request.GET.get(key)`: the last value bound to the key. -/
def lookupQ (query : List (String × String)) (key : String) : Option String :=
  ((query.filter (fun kv => kv.1 == key)).getLast?).map (fun kv => kv.2)

/-- The generated session id
`f"vod_{int(time.time() * 1000)}_{random.randint(1000, 9999)}"`,
as a character list. -/
def genSessionIdL (nowMs randSuffix : Nat) : List Char :=
  "vod_".toList ++ (Nat.toDigits 10 nowMs ++ '_' :: Nat.toDigits 10 randSuffix)

def genSessionId (nowMs randSuffix : Nat) : String :=
  String.mk (genSessionIdL nowMs randSuffix)

/-- The redirect `Location` built by `VODStreamView.get` when no session id
is present: `'/'.join(path.rstrip('/').split('/'))` plus the session segment
(and the profile segment when given), plus the query string minus any
`session_id` parameter. -/
def redirectLocation (path : String) (profile_id : Option Nat) (sid : String)
    (query : List (String × String)) : String :=
  let base := String.mk (joinSlash (splitSlash (rstripSlashL path.toList)))
  let newPath :=
    match profile_id with
    | some pid => base ++ "/" ++ sid ++ "/" ++ Nat.repr pid ++ "/"
    | none => base ++ "/" ++ sid
  let qp := query.filter (fun kv => kv.1 != "session_id")
  if qp.isEmpty then newPath else newPath ++ "?" ++ encodeQuery qp

/-- `VODStreamView.get`, from request parsing to the streaming hand-off
(the actual byte relay by the connection manager is outside this view). -/
def vodGet (db : ContentDb) (redis : Option RedisState) (sess : SessInfo)
    (path : String) (session_id : Option String) (profile_id : Option Nat)
    (query : List (String × String)) (nowMs randSuffix : Nat) : GetResult :=
  match session_id with
  | none =>
    .redirect (redirectLocation path profile_id (genSessionId nowMs randSuffix) query)
  | some _ =>
    let preferred_m3u_account_id :=
      match lookupQ query "m3u_account_id" with
      | some v => v.toNat?
      | none => none
    let preferred_stream_id := lookupQ query "stream_id"
    match getContentRelation db preferred_m3u_account_id preferred_stream_id with
    | none => .notFound
    | some relation =>
      match relation.stream_url with
      | none => .noStreamUrl
      | some stream_url =>
        match getM3UProfile redis relation.account profile_id sess with
        | none => .noProfile
        | some (m3u_profile, current_connections) =>
          match transform_url stream_url.toList m3u_profile with
          | none => .invalidUrl ""
          | some fu =>
            let final_stream_url := String.mk fu
            if startsWithChars "http://".toList fu ||
                startsWithChars "https://".toList fu then
              .streams final_stream_url m3u_profile current_connections
            else .invalidUrl final_stream_url

/-- The upstream answer to the probe GET, as `VODStreamView.head` reads it:
status code, `headers.get('Content-Range', '')`, and the optional
`Content-Length` and `Content-Type` headers. -/
structure UpstreamResp where
  status : Nat
  contentRange : String
  contentLength : Option String
  contentType : Option String
deriving DecidableEq, Repr

/-- What the HEAD handler does with the probe answer: a response carrying a
total size and a content type, or an error response mirroring the provider
status. -/
inductive HeadOutcome
  | ok (totalSize : String) (contentTypeHeader : String)
  | providerError (status : Nat)
deriving DecidableEq, Repr

/-- `content_range.split('/')[-1]`. -/
def lastSeg (cr : String) : String :=
  String.mk ((splitSlash cr.toList).getLastD [])

/-- The content-type fallback chain of the HEAD handler: provider header,
else inferred from the URL (`infer` stands for
`infer_content_type_from_url`, whose source is outside the snapshot), else
the `'video/mp4'` default. -/
def ctypeOf (infer : String → Option String) (finalUrl : String)
    (r : UpstreamResp) : String :=
  match r.contentType with
  | some ct => ct
  | none =>
    match infer finalUrl with
    | some t => t
    | none => "video/mp4"

/-- The probe-processing core of `VODStreamView.head` (lines 298-327 plus
the content-type chain): 206 parses the size from Content-Range (falling
back to Content-Length when the header is missing), 200 takes
Content-Length, any other status returns a provider-error response with the
upstream's status code. -/
def headProbe (infer : String → Option String) (finalUrl : String)
    (r : UpstreamResp) : HeadOutcome :=
  if r.status = 206 then
    if r.contentRange != "" then
      .ok (lastSeg r.contentRange) (ctypeOf infer finalUrl r)
    else
      .ok (r.contentLength.getD "0") (ctypeOf infer finalUrl r)
  else if r.status = 200 then
    .ok (r.contentLength.getD "0") (ctypeOf infer finalUrl r)
  else .providerError r.status

/-- Python `a or b` on strings (empty is falsy). -/
def pyOrStr (a b : String) : String := if a = "" then b else a

/-- The headers of the probe request: user-agent chain and the two-byte
range. -/
def probeHeaders (m3uUA clientUA : String) : List (String × String) :=
  [("User-Agent", pyOrStr m3uUA (pyOrStr clientUA "Dispatcharr/1.0")),
   ("Accept", "*/*"),
   ("Range", "bytes=0-1")]


/-! ### Helper lemmas for the URL transformer -/

theorem safeReplF_of_no_dollar : ∀ (tmpl : List Char) (f : Nat),
    (∀ c ∈ tmpl, c ≠ '$') → safeReplF f tmpl = tmpl := by
  intro tmpl
  induction tmpl with
  | nil => intro f _; cases f <;> rfl
  | cons c cs ih =>
    intro f h
    cases f with
    | zero => rfl
    | succ f =>
      have hc : c ≠ '$' := h c (List.mem_cons_self _ _)
      simp only [safeReplF, if_neg hc]
      rw [ih f (fun x hx => h x (List.mem_cons_of_mem _ hx))]

theorem templOkF_of_no_backslash : ∀ (tmpl : List Char) (g f : Nat),
    (∀ c ∈ tmpl, c ≠ '\\') → templOkF g f tmpl = true := by
  intro tmpl
  induction tmpl with
  | nil => intro g f _; cases f <;> rfl
  | cons c cs ih =>
    intro g f h
    cases f with
    | zero => rfl
    | succ f =>
      have hc : c ≠ '\\' := h c (List.mem_cons_self _ _)
      simp only [templOkF, if_neg hc]
      exact ih g f (fun x hx => h x (List.mem_cons_of_mem _ hx))

theorem expandRunF_of_no_backslash : ∀ (tmpl : List Char) (cap : List Char) (f : Nat),
    (∀ c ∈ tmpl, c ≠ '\\') → expandRunF cap f tmpl = tmpl := by
  intro tmpl
  induction tmpl with
  | nil => intro cap f _; cases f <;> rfl
  | cons c cs ih =>
    intro cap f h
    cases f with
    | zero => rfl
    | succ f =>
      have hc : c ≠ '\\' := h c (List.mem_cons_self _ _)
      simp only [expandRunF, if_neg hc]
      rw [ih cap f (fun x hx => h x (List.mem_cons_of_mem _ hx))]

theorem atomsExact_length : ∀ (as : List RAtom) (cs : List Char),
    atomsExact as cs = true → as.length = cs.length := by
  intro as
  induction as with
  | nil => intro cs h; cases cs with
    | nil => rfl
    | cons c cs => simp [atomsExact] at h
  | cons a as ih =>
    intro cs h
    cases cs with
    | nil => simp [atomsExact] at h
    | cons c cs =>
      simp only [atomsExact, Bool.and_eq_true] at h
      simp [List.length_cons, ih cs h.2]

theorem matchPre_append_of_atomsExact : ∀ (as : List RAtom) (cs : List Char)
    (bs : List RAtom) (ds : List Char),
    atomsExact as cs = true → matchPre bs ds = true →
    matchPre (as ++ bs) (cs ++ ds) = true := by
  intro as
  induction as with
  | nil =>
    intro cs bs ds h hm
    cases cs with
    | nil => simpa using hm
    | cons c cs => simp [atomsExact] at h
  | cons a as ih =>
    intro cs bs ds h hm
    cases cs with
    | nil => simp [atomsExact] at h
    | cons c cs =>
      simp only [atomsExact, Bool.and_eq_true] at h
      simp only [List.cons_append, matchPre, Bool.and_eq_true]
      exact ⟨h.1, ih cs bs ds h.2 hm⟩

theorem matchPre_of_atomsExact (as : List RAtom) (cs : List Char)
    (h : atomsExact as cs = true) : matchPre as cs = true := by
  have hr := matchPre_append_of_atomsExact as cs [] [] h rfl
  simp only [List.append_nil] at hr
  exact hr

/-- If the pattern matches the whole input in a single pass, the scanning
loop produces exactly one expanded replacement. -/
theorem subGo_whole_match (p : RPattern) (tmpl url : List Char)
    (hm : matchPre (patAtoms p) url = true) (hl : patLen p = url.length)
    (hne : url ≠ []) :
    subGoF p tmpl url.length url = expandRun (capAt p url) tmpl := by
  obtain ⟨c, cs, rfl⟩ := List.exists_cons_of_ne_nil hne
  have hlen : (c :: cs).length = cs.length + 1 := List.length_cons c cs
  have hnz : patLen p ≠ 0 := by rw [hl, hlen]; exact Nat.succ_ne_zero _
  rw [hlen]
  simp only [subGoF, hm, if_true, if_neg hnz]
  have hdrop : cs.drop (patLen p - 1) = [] := by
    rw [hl, hlen]
    simp
  rw [hdrop]
  simp only [subGoF, if_neg hnz, List.append_nil]

/-! ### Claims C4 and C5: the URL transformer -/

/-- C4 (counterexample): with an empty input URL the transformer returns
Python None (modelled `none`) even when both patterns are empty, not the URL
unchanged, so the claim does not hold for every input URL. -/
theorem c4_empty_url_counterexample :
    transform_url [] ⟨0, true, true, 0, PatternStr.emptyPat, []⟩ = none ∧
      (none : Option (List Char)) ≠ some [] := by
  constructor
  · rfl
  · intro h; cases h

/-- C4 (amended): for every nonempty input URL and every profile, the
transformer never raises — it always produces a value — and if either
pattern is empty, or the search pattern is malformed (compilation or
substitution failing inside the try body), the result is the original URL
unchanged.  For an empty input URL the function instead returns None. -/
theorem c4_transform_never_raises (url : List Char) (prof : ProfileRec)
    (hne : url ≠ []) :
    ((prof.search_pattern = PatternStr.emptyPat ∨ prof.replace_pattern = []) →
        transform_url url prof = some url) ∧
      (prof.search_pattern = PatternStr.malformedPat →
        transform_url url prof = some url) ∧
      (∃ r, transform_url url prof = some r) := by
  refine ⟨?_, ?_, ?_⟩
  · rintro (hs | hr)
    · rw [transform_url, if_neg hne, hs]
      cases hrepl : prof.replace_pattern <;> rfl
    · rw [transform_url, if_neg hne, hr]
      cases prof.search_pattern <;> rfl
  · intro hs
    rw [transform_url, if_neg hne, hs]
    cases prof.replace_pattern <;> rfl
  · rw [transform_url, if_neg hne]
    cases prof.search_pattern with
    | emptyPat => cases prof.replace_pattern <;> exact ⟨url, rfl⟩
    | malformedPat => cases prof.replace_pattern <;> exact ⟨url, rfl⟩
    | goodPat p =>
      cases prof.replace_pattern with
      | nil => exact ⟨url, rfl⟩
      | cons t ts =>
        cases hsub : reSub p (safeReplacePattern (t :: ts)) url with
        | none => exact ⟨url, by simp [hsub]⟩
        | some r => exact ⟨r, by simp [hsub]⟩

/-- C4 witness: the amended theorem applied to a concrete nonempty URL with
an empty search pattern. -/
theorem c4_transform_never_raises_witness :
    ("http://host/x".toList ≠ ([] : List Char)) ∧
      transform_url "http://host/x".toList ⟨0, true, true, 0, PatternStr.emptyPat, []⟩ =
        some ("http://host/x".toList) :=
  ⟨by decide,
    (c4_transform_never_raises "http://host/x".toList
      ⟨0, true, true, 0, PatternStr.emptyPat, []⟩ (by decide)).1 (Or.inl rfl)⟩

/-- C5 (counterexample): with the group-free pattern `foo` and replacement
`bar`, the transform of the non-matching input `xyz` is the input unchanged
and not the replacement string, so the transform is not independent of the
input. -/
theorem c5_roundtrip_counterexample :
    transform_url "xyz".toList
        ⟨0, true, true, 0,
          PatternStr.goodPat ⟨[RAtom.lit 'f', RAtom.lit 'o', RAtom.lit 'o'], none, []⟩,
          "bar".toList⟩ = some ("xyz".toList) ∧
      some ("xyz".toList) ≠ some ("bar".toList) := by
  constructor
  · decide
  · decide

/-- C5 (amended): the round-trip laws hold for inputs the pattern matches
wholly (a single match covering the entire URL).  First conjunct: a pattern
with no capture group and a literal replacement (no backreference syntax)
rewrites any wholly-matched input to exactly the replacement string.  Second
conjunct: a pattern with one capture group and replacement `$1` rewrites any
wholly-matched input to exactly the substring matched by the group. -/
theorem c5_roundtrip_whole_match :
    (∀ (atoms : List RAtom) (tmpl url : List Char),
      (∀ c ∈ tmpl, c ≠ '$' ∧ c ≠ '\\') → tmpl ≠ [] → url ≠ [] →
      atomsExact atoms url = true →
      transform_url url ⟨0, true, true, 0,
        PatternStr.goodPat ⟨atoms, none, []⟩, tmpl⟩ = some tmpl) ∧
    (∀ (pre g post : List RAtom) (u1 u2 u3 : List Char),
      atomsExact pre u1 = true → atomsExact g u2 = true →
      atomsExact post u3 = true → u1 ++ (u2 ++ u3) ≠ [] →
      transform_url (u1 ++ (u2 ++ u3)) ⟨0, true, true, 0,
        PatternStr.goodPat ⟨pre, some g, post⟩, '$' :: ['1']⟩ = some u2) := by
  constructor
  · intro atoms tmpl url htm htne hune hex
    have hnod : ∀ c ∈ tmpl, c ≠ '$' := fun c hc => (htm c hc).1
    have hnob : ∀ c ∈ tmpl, c ≠ '\\' := fun c hc => (htm c hc).2
    obtain ⟨t, ts, rfl⟩ := List.exists_cons_of_ne_nil htne
    set p : RPattern := ⟨atoms, none, []⟩ with hp
    have hatoms : patAtoms p = atoms := by
      simp [patAtoms, grpAtoms, hp]
    have hm : matchPre (patAtoms p) url = true := by
      rw [hatoms]; exact matchPre_of_atomsExact atoms url hex
    have hl : patLen p = url.length := by
      rw [patLen, hatoms]; exact atomsExact_length atoms url hex
    have hok : templOk (numGroups p) (t :: ts) = true :=
      templOkF_of_no_backslash (t :: ts) (numGroups p) (t :: ts).length hnob
    have hre : reSub p (safeReplacePattern (t :: ts)) url = some (t :: ts) := by
      rw [safeReplacePattern, safeReplF_of_no_dollar _ _ hnod, reSub,
        if_pos hok, subGo_whole_match p _ url hm hl hune, expandRun,
        expandRunF_of_no_backslash _ _ _ hnob]
    rw [transform_url, if_neg hune]
    simp only [hre]
  · intro pre g post u1 u2 u3 h1 h2 h3 hune
    set p : RPattern := ⟨pre, some g, post⟩ with hp
    set url : List Char := u1 ++ (u2 ++ u3) with hurl
    have hatoms : patAtoms p = pre ++ (g ++ post) := by
      simp [patAtoms, grpAtoms, hp, List.append_assoc]
    have hm : matchPre (patAtoms p) url = true := by
      rw [hatoms, hurl]
      exact matchPre_append_of_atomsExact pre u1 (g ++ post) (u2 ++ u3) h1
        (matchPre_append_of_atomsExact g u2 post u3 h2
          (matchPre_of_atomsExact post u3 h3))
    have hl1 := atomsExact_length pre u1 h1
    have hl2 := atomsExact_length g u2 h2
    have hl3 := atomsExact_length post u3 h3
    have hl : patLen p = url.length := by
      rw [patLen, hatoms, hurl]
      simp [List.length_append, hl1, hl2, hl3]
    have hcap : capAt p url = u2 := by
      rw [capAt, hurl]
      have hpre : p.pre.length = u1.length := by rw [hp]; exact hl1
      have hg : (grpAtoms p).length = u2.length := by
        simp [grpAtoms, hp, hl2]
      rw [hpre, hg, List.drop_left, List.take_left]
    have hexp : expandRun u2 ('\\' :: ['1']) = u2 := by
      show expandRunF u2 2 ('\\' :: ['1']) = u2
      show (if parseDec ['1'] = 1 then u2 else []) ++ expandRunF u2 1 [] = u2
      rw [if_pos (by decide)]
      simp [expandRunF]
    have hre : reSub p (safeReplacePattern ('$' :: ['1'])) url = some u2 := by
      have hsafe : safeReplacePattern ('$' :: ['1']) = '\\' :: ['1'] := by decide
      rw [hsafe, reSub]
      have hng : numGroups p = 1 := by rw [hp]; rfl
      have hok : templOk (numGroups p) ('\\' :: ['1']) = true := by
        rw [hng]; decide
      rw [if_pos hok, subGo_whole_match p _ url hm hl hune, hcap, hexp]
    rw [transform_url, if_neg hune]
    simp only [hre]

/-- C5 witness: both round-trip laws applied at concrete wholly-matched
inputs — pattern `foo` with replacement `bar` on input `foo`, and pattern
`a(..)b` with replacement `$1` on input `axyb`. -/
theorem c5_roundtrip_whole_match_witness :
    transform_url "foo".toList ⟨0, true, true, 0,
        PatternStr.goodPat ⟨[RAtom.lit 'f', RAtom.lit 'o', RAtom.lit 'o'], none, []⟩,
        "bar".toList⟩ = some ("bar".toList) ∧
      transform_url "axyb".toList ⟨0, true, true, 0,
        PatternStr.goodPat ⟨[RAtom.lit 'a'], some [RAtom.dot, RAtom.dot], [RAtom.lit 'b']⟩,
        '$' :: ['1']⟩ = some "xy".toList := by
  constructor
  · exact c5_roundtrip_whole_match.1 [RAtom.lit 'f', RAtom.lit 'o', RAtom.lit 'o']
      "bar".toList "foo".toList (by decide) (by decide) (by decide) (by decide)
  · exact c5_roundtrip_whole_match.2 [RAtom.lit 'a'] [RAtom.dot, RAtom.dot]
      [RAtom.lit 'b'] "a".toList "xy".toList "b".toList
      (by decide) (by decide) (by decide) (by decide)

/-! ### Helper lemmas for profile selection -/

theorem hasCapacity_iff (st : RedisState) (p : ProfileRec) :
    hasCapacity st p = true ↔
      (p.max_streams = 0 ∨ st.counts p.id < p.max_streams) := by
  simp [hasCapacity]

theorem selectLoop_some (st : RedisState) :
    ∀ (l : List ProfileRec) (p : ProfileRec) (n : Nat),
      selectLoop st l = some (p, n) →
      hasCapacity st p = true ∧ n = st.counts p.id := by
  intro l
  induction l with
  | nil => intro p n h; simp [selectLoop] at h
  | cons q rest ih =>
    intro p n h
    by_cases hq : hasCapacity st q = true
    · rw [selectLoop, if_pos hq] at h
      simp only [Option.some.injEq, Prod.mk.injEq] at h
      obtain ⟨rfl, rfl⟩ := h
      exact ⟨hq, rfl⟩
    · rw [selectLoop, if_neg hq] at h
      exact ih p n h

theorem selectLoop_eq_find (st : RedisState) :
    ∀ l : List ProfileRec,
      selectLoop st l =
        (l.find? (fun p => hasCapacity st p)).map (fun p => (p, st.counts p.id)) := by
  intro l
  induction l with
  | nil => rfl
  | cons q rest ih =>
    by_cases hq : hasCapacity st q = true
    · rw [selectLoop, if_pos hq, List.find?_cons_of_pos _ hq]; rfl
    · rw [selectLoop, if_neg hq,
        List.find?_cons_of_neg _ (by simpa using hq), ih]

theorem autoSelect_some (st : RedisState) (acct : Account) (p : ProfileRec)
    (n : Nat) (h : autoSelect st acct = some (p, n)) :
    hasCapacity st p = true ∧ n = st.counts p.id := by
  rw [autoSelect] at h
  cases hd : defaultProfile acct with
  | none => rw [hd] at h; cases h
  | some dp =>
    rw [hd] at h
    exact selectLoop_some st _ p n h

theorem autoSelect_eq_specAuto (st : RedisState) (acct : Account) :
    autoSelect st acct = specAuto st acct := by
  rw [autoSelect, specAuto, specCandidates, defaultProfile]
  cases hd : (acct.profiles.filter (fun p => p.is_active)).find?
      (fun p => p.is_default) with
  | none => simp
  | some d => simp [selectLoop_eq_find]

/-! ### Claims C1, C2, C3, C10: profile selection -/

/-- C1 (counterexample): on the session-affinity reuse path the function
performs no capacity check, so it can return a profile whose live counter
(here 1) is at its `max_streams` limit (here 1, nonzero) — the claim fails
when quantified over every return path. -/
theorem c1_affinity_over_capacity_counterexample :
    getM3UProfile (some ⟨fun i => if i = 1 then 1 else 0⟩)
        ⟨[⟨1, true, false, 1, PatternStr.emptyPat, []⟩]⟩ none
        (SessInfo.storedProfile 1) =
      some (⟨1, true, false, 1, PatternStr.emptyPat, []⟩, 1) ∧
    ¬((1 : Nat) < 1) ∧ (1 : Nat) ≠ 0 :=
  ⟨by decide, by decide, by decide⟩

/-- C1 (amended): whenever session affinity does not apply (so the result
comes from the requested-profile or automatic-selection path of a reachable
store), a returned profile's live counter, which is also the reported count,
is strictly below `max_streams` unless `max_streams = 0`; the
session-affinity reuse path and the store-unavailable fallback perform no
capacity check. -/
theorem c1_capacity_respected_without_affinity (st : RedisState)
    (acct : Account) (profile_id : Option Nat) (sess : SessInfo)
    (p : ProfileRec) (n : Nat)
    (hsess : sessionLookup st acct sess = none)
    (hres : getM3UProfile (some st) acct profile_id sess = some (p, n)) :
    (p.max_streams = 0 ∨ n < p.max_streams) ∧ n = st.counts p.id := by
  simp only [getM3UProfile, hsess] at hres
  cases profile_id with
  | none =>
    simp only at hres
    obtain ⟨h1, h2⟩ := autoSelect_some st acct p n hres
    subst h2
    exact ⟨(hasCapacity_iff st p).mp h1, rfl⟩
  | some i =>
    cases hfp : findProfile acct i with
    | none =>
      simp only [hfp] at hres
      obtain ⟨h1, h2⟩ := autoSelect_some st acct p n hres
      subst h2
      exact ⟨(hasCapacity_iff st p).mp h1, rfl⟩
    | some q =>
      cases hcap : hasCapacity st q with
      | false =>
        simp only [hfp, hcap, Bool.false_eq_true, if_false] at hres
        obtain ⟨h1, h2⟩ := autoSelect_some st acct p n hres
        subst h2
        exact ⟨(hasCapacity_iff st p).mp h1, rfl⟩
      | true =>
        simp only [hfp, hcap, if_true] at hres
        simp only [Option.some.injEq, Prod.mk.injEq] at hres
        obtain ⟨rfl, rfl⟩ := hres
        exact ⟨(hasCapacity_iff st q).mp hcap, rfl⟩

/-- C1 witness: the amended theorem applied to a store with zero live
connections and an account with one default active profile of capacity 2. -/
theorem c1_capacity_respected_without_affinity_witness :
    sessionLookup ⟨fun _ => 0⟩ ⟨[⟨1, true, true, 2, PatternStr.emptyPat, []⟩]⟩
        SessInfo.noSession = none ∧
    (((⟨1, true, true, 2, PatternStr.emptyPat, []⟩ : ProfileRec).max_streams = 0 ∨
        0 < (⟨1, true, true, 2, PatternStr.emptyPat, []⟩ : ProfileRec).max_streams) ∧
      (0 : Nat) = (⟨fun _ => 0⟩ : RedisState).counts
        (⟨1, true, true, 2, PatternStr.emptyPat, []⟩ : ProfileRec).id) :=
  ⟨rfl,
    c1_capacity_respected_without_affinity ⟨fun _ => 0⟩
      ⟨[⟨1, true, true, 2, PatternStr.emptyPat, []⟩]⟩ none SessInfo.noSession
      ⟨1, true, true, 2, PatternStr.emptyPat, []⟩ 0 rfl (by decide)⟩

/-- C2: when the session record names a profile id that still resolves to an
active profile of the account, the function returns exactly that profile
with its live counter, for any store contents and any requested profile id —
so it performs no capacity check there, and two sequential requests with the
same session id (possibly seeing different counter values) both resolve to
that same profile. -/
theorem c2_session_affinity_reuse (st1 st2 : RedisState) (acct : Account)
    (pid1 pid2 : Option Nat) (i : Nat) (p : ProfileRec)
    (hfind : findProfile acct i = some p) :
    getM3UProfile (some st1) acct pid1 (SessInfo.storedProfile i) =
        some (p, st1.counts p.id) ∧
      getM3UProfile (some st2) acct pid2 (SessInfo.storedProfile i) =
        some (p, st2.counts p.id) := by
  constructor <;>
    simp only [getM3UProfile, sessionLookup, hfind, Option.map_some']

/-- C2 witness: a stored profile at full capacity (counter 7 against
`max_streams = 1`) is still reused by two requests with different counter
snapshots. -/
theorem c2_session_affinity_reuse_witness :
    findProfile ⟨[⟨5, true, false, 1, PatternStr.emptyPat, []⟩]⟩ 5 =
        some ⟨5, true, false, 1, PatternStr.emptyPat, []⟩ ∧
      getM3UProfile (some ⟨fun _ => 7⟩)
          ⟨[⟨5, true, false, 1, PatternStr.emptyPat, []⟩]⟩ none
          (SessInfo.storedProfile 5) =
        some (⟨5, true, false, 1, PatternStr.emptyPat, []⟩, 7) ∧
      getM3UProfile (some ⟨fun _ => 9⟩)
          ⟨[⟨5, true, false, 1, PatternStr.emptyPat, []⟩]⟩ (some 5)
          (SessInfo.storedProfile 5) =
        some (⟨5, true, false, 1, PatternStr.emptyPat, []⟩, 9) :=
  ⟨by decide,
    (c2_session_affinity_reuse ⟨fun _ => 7⟩ ⟨fun _ => 9⟩
      ⟨[⟨5, true, false, 1, PatternStr.emptyPat, []⟩]⟩ none (some 5) 5
      ⟨5, true, false, 1, PatternStr.emptyPat, []⟩ (by decide)).1,
    (c2_session_affinity_reuse ⟨fun _ => 7⟩ ⟨fun _ => 9⟩
      ⟨[⟨5, true, false, 1, PatternStr.emptyPat, []⟩]⟩ none (some 5) 5
      ⟨5, true, false, 1, PatternStr.emptyPat, []⟩ (by decide)).2⟩

/-- C3 (counterexample): with no applicable session affinity and an account
whose only profile is active, non-default and has spare capacity, the claim
says automatic selection returns that profile, but the code returns `None`
because no default active profile exists. -/
theorem c3_no_default_profile_counterexample :
    getM3UProfile (some ⟨fun _ => 0⟩)
        ⟨[⟨1, true, false, 1, PatternStr.emptyPat, []⟩]⟩ none SessInfo.noSession =
      none ∧
    (⟨1, true, false, 1, PatternStr.emptyPat, []⟩ : ProfileRec).is_active = true ∧
    hasCapacity ⟨fun _ => 0⟩ ⟨1, true, false, 1, PatternStr.emptyPat, []⟩ = true :=
  ⟨by decide, rfl, by decide⟩

/-- C3 (amended): with no applicable session affinity, selection equals the
spec-side contract: a requested profile that resolves (active, same account)
with spare capacity is selected; otherwise automatic selection scans
`[default profile] ++ other active profiles in configured priority order`
for the first with spare capacity (`max_streams = 0` always qualifies) —
except that automatic selection requires a default active profile to exist
and returns `None` otherwise, regardless of other profiles' capacity. -/
theorem c3_fresh_selection_matches_spec (st : RedisState) (acct : Account)
    (profile_id : Option Nat) (sess : SessInfo)
    (hsess : sessionLookup st acct sess = none) :
    getM3UProfile (some st) acct profile_id sess = specSelect st acct profile_id := by
  simp only [getM3UProfile, hsess, specSelect]
  cases profile_id with
  | none => exact autoSelect_eq_specAuto st acct
  | some i =>
    cases hfp : findProfile acct i with
    | none => simp only [hfp]; exact autoSelect_eq_specAuto st acct
    | some q =>
      cases hcap : hasCapacity st q with
      | false =>
        simp only [hfp, hcap, Bool.false_eq_true, if_false]
        exact autoSelect_eq_specAuto st acct
      | true => simp only [hfp, hcap, if_true]

/-- C3 witness: the amended equivalence applied to a concrete store, an
account with a default and a non-default profile, and a requested id. -/
theorem c3_fresh_selection_matches_spec_witness :
    sessionLookup ⟨fun _ => 1⟩
        ⟨[⟨1, true, true, 1, PatternStr.emptyPat, []⟩,
          ⟨2, true, false, 0, PatternStr.emptyPat, []⟩]⟩ SessInfo.noProfileField =
      none ∧
    getM3UProfile (some ⟨fun _ => 1⟩)
        ⟨[⟨1, true, true, 1, PatternStr.emptyPat, []⟩,
          ⟨2, true, false, 0, PatternStr.emptyPat, []⟩]⟩ (some 2)
        SessInfo.noProfileField =
      specSelect ⟨fun _ => 1⟩
        ⟨[⟨1, true, true, 1, PatternStr.emptyPat, []⟩,
          ⟨2, true, false, 0, PatternStr.emptyPat, []⟩]⟩ (some 2) :=
  ⟨rfl,
    c3_fresh_selection_matches_spec ⟨fun _ => 1⟩
      ⟨[⟨1, true, true, 1, PatternStr.emptyPat, []⟩,
        ⟨2, true, false, 0, PatternStr.emptyPat, []⟩]⟩ (some 2)
      SessInfo.noProfileField rfl⟩

/-! ### Claim C10: behaviour when the shared store is unavailable -/

/-- C10: when the shared store is unavailable, profile selection returns the
account's first default active profile with a reported connection count of
0 whenever one exists, ignoring both the requested profile id and any
session affinity (hence performing no capacity check at all); it returns
`None` exactly when no default active profile exists, in which case the GET
pipeline answers the 503 `No available stream` response. -/
theorem c10_store_unavailable_fallback (acct : Account)
    (pid pid2 : Option Nat) (sess sess2 : SessInfo) (db : ContentDb)
    (path sid : String) (query : List (String × String)) (nowMs rnd : Nat)
    (rel : Relation) (su : String) :
    (∀ p n, getM3UProfile none acct pid sess = some (p, n) →
        p.is_active = true ∧ p.is_default = true ∧ n = 0) ∧
      getM3UProfile none acct pid sess = getM3UProfile none acct pid2 sess2 ∧
      (∀ d, acct.profiles.find? (fun p => p.is_active && p.is_default) = some d →
        getM3UProfile none acct pid sess = some (d, 0)) ∧
      (acct.profiles.find? (fun p => p.is_active && p.is_default) = none →
        getM3UProfile none acct pid sess = none) ∧
      (getContentRelation db
            (match lookupQ query "m3u_account_id" with
              | some v => v.toNat?
              | none => none)
            (lookupQ query "stream_id") = some rel →
        rel.stream_url = some su →
        rel.account = acct →
        acct.profiles.find? (fun p => p.is_active && p.is_default) = none →
        vodGet db none sess path (some sid) pid query nowMs rnd =
          GetResult.noProfile) ∧
      statusCode GetResult.noProfile = 503 := by
  refine ⟨?_, rfl, ?_, ?_, ?_, rfl⟩
  · intro p n h
    simp only [getM3UProfile] at h
    cases hf : acct.profiles.find? (fun p => p.is_active && p.is_default) with
    | none => rw [hf] at h; cases h
    | some q =>
      rw [hf] at h
      simp only [Option.map_some', Option.some.injEq, Prod.mk.injEq] at h
      obtain ⟨rfl, rfl⟩ := h
      have hq := List.find?_some hf
      simp only [Bool.and_eq_true] at hq
      exact ⟨hq.1, hq.2, rfl⟩
  · intro d hd
    simp only [getM3UProfile, hd, Option.map_some']
  · intro h
    simp only [getM3UProfile, h, Option.map_none']
  · intro hrel hsu hacct hnod
    have hprof : getM3UProfile none acct pid sess = none := by
      simp only [getM3UProfile, hnod, Option.map_none']
    simp only [vodGet, hrel, hsu, hacct, hprof]

/-- C10 witness: with the store down, a concrete account whose second
profile is the default active one gets that profile returned with count 0
despite a requested id and a broken session record; and a concrete account
with no default active profile answers `noProfile` (503) through the full
GET pipeline. -/
theorem c10_store_unavailable_fallback_witness :
    getM3UProfile none
        ⟨[⟨1, true, false, 1, PatternStr.emptyPat, []⟩,
          ⟨2, true, true, 3, PatternStr.emptyPat, []⟩]⟩ (some 9)
        SessInfo.badProfileField =
      some (⟨2, true, true, 3, PatternStr.emptyPat, []⟩, 0) ∧
    vodGet
        ⟨true, [⟨1, "st", 2, 5, true, some "http://u",
          ⟨[⟨1, true, false, 1, PatternStr.emptyPat, []⟩]⟩⟩]⟩
        none SessInfo.noSession "/proxy/vod/movie/abc" (some "sess") none []
        0 0 =
      GetResult.noProfile :=
  ⟨(c10_store_unavailable_fallback
      ⟨[⟨1, true, false, 1, PatternStr.emptyPat, []⟩,
        ⟨2, true, true, 3, PatternStr.emptyPat, []⟩]⟩ (some 9) none
      SessInfo.badProfileField SessInfo.noSession
      ⟨true, []⟩ "/p" "s" [] 0 0
      ⟨1, "st", 2, 5, true, none, ⟨[]⟩⟩ "").2.2.1
      ⟨2, true, true, 3, PatternStr.emptyPat, []⟩ (by decide),
    (c10_store_unavailable_fallback
      ⟨[⟨1, true, false, 1, PatternStr.emptyPat, []⟩]⟩ none none
      SessInfo.noSession SessInfo.noSession
      ⟨true, [⟨1, "st", 2, 5, true, some "http://u",
        ⟨[⟨1, true, false, 1, PatternStr.emptyPat, []⟩]⟩⟩]⟩
      "/proxy/vod/movie/abc" "sess" [] 0 0
      ⟨1, "st", 2, 5, true, some "http://u",
        ⟨[⟨1, true, false, 1, PatternStr.emptyPat, []⟩]⟩⟩
      "http://u").2.2.2.2.1 (by decide) (by decide) (by decide) (by decide)⟩

/-! ### Claim C6: content exists but has no active-account candidate -/

theorem splitSlash_ne_nil : ∀ s : List Char, splitSlash s ≠ [] := by
  intro s
  cases s with
  | nil => simp [splitSlash]
  | cons c cs =>
    rw [splitSlash]
    by_cases hc : c = '/'
    · simp [hc]
    · rw [if_neg hc]
      cases h : splitSlash cs <;> simp

theorem joinSlash_splitSlash : ∀ s : List Char, joinSlash (splitSlash s) = s := by
  intro s
  induction s with
  | nil => rfl
  | cons c cs ih =>
    rw [splitSlash]
    by_cases hc : c = '/'
    · rw [if_pos hc]
      obtain ⟨h, t, he⟩ := List.exists_cons_of_ne_nil (splitSlash_ne_nil cs)
      rw [he]
      rw [he] at ih
      subst hc
      show [] ++ '/' :: joinSlash (h :: t) = '/' :: cs
      rw [List.nil_append, ih]
    · rw [if_neg hc]
      obtain ⟨h, t, he⟩ := List.exists_cons_of_ne_nil (splitSlash_ne_nil cs)
      rw [he]
      rw [he] at ih
      cases t with
      | nil =>
        show joinSlash [c :: h] = c :: cs
        simp only [joinSlash] at ih ⊢
        rw [ih]
      | cons t2 ts =>
        show joinSlash ((c :: h) :: t2 :: ts) = c :: cs
        simp only [joinSlash] at ih ⊢
        rw [List.cons_append, ih]

/-- C8: a GET without a session id answers a 301 redirect whose Location is
the right-stripped request path extended with the generated session segment
(and the profile segment when a profile id was given), carrying every query
parameter except `session_id`; the result does not depend on the content
database, the shared store, or the session registry — no resolution,
profile selection or upstream work happens before redirecting. -/
theorem c8_redirect_without_session (db db2 : ContentDb)
    (redis redis2 : Option RedisState) (sess sess2 : SessInfo) (path : String)
    (profile_id : Option Nat) (query : List (String × String))
    (nowMs rnd : Nat) :
    vodGet db redis sess path none profile_id query nowMs rnd =
        GetResult.redirect
          (let base := String.mk (rstripSlashL path.toList)
           let sid := genSessionId nowMs rnd
           let newPath :=
             match profile_id with
             | some pid => base ++ "/" ++ sid ++ "/" ++ Nat.repr pid ++ "/"
             | none => base ++ "/" ++ sid
           let qp := query.filter (fun kv => kv.1 != "session_id")
           if qp.isEmpty then newPath else newPath ++ "?" ++ encodeQuery qp) ∧
      vodGet db redis sess path none profile_id query nowMs rnd =
        vodGet db2 redis2 sess2 path none profile_id query nowMs rnd ∧
      statusCode (vodGet db redis sess path none profile_id query nowMs rnd) =
        301 := by
  refine ⟨?_, rfl, rfl⟩
  simp only [vodGet, redirectLocation, joinSlash_splitSlash]

/-! ### Claim C7: the HEAD content probe -/

/-- C7 (counterexample): an upstream probe status other than 206 or 200
(here 500) makes the HEAD handler return a provider-error response carrying
the upstream status, not a fallback response with a default content type
and omitted length. -/
theorem c7_probe_error_counterexample :
    headProbe (fun _ => none) "http://u" ⟨500, "", none, none⟩ =
        HeadOutcome.providerError 500 ∧
      HeadOutcome.providerError 500 ≠ HeadOutcome.ok "0" "video/mp4" :=
  ⟨by decide, by decide⟩

/-- C7 (amended): the probe request carries the two-byte range header
`bytes=0-1`; a 206 answer takes the total size from the last
slash-separated field of Content-Range (falling back to Content-Length when
that header is absent), a 200 answer takes Content-Length and is the
no-range-support case; any other status yields an error response mirroring
the upstream status code.  The default content type (provider header, else
inferred from the URL, else `video/mp4`) applies to the successful
outcomes, not to the error status case. -/
theorem c7_probe_contract (infer : String → Option String)
    (finalUrl : String) (r : UpstreamResp) (m3uUA clientUA : String) :
    (r.status = 206 → r.contentRange ≠ "" →
        headProbe infer finalUrl r =
          HeadOutcome.ok (lastSeg r.contentRange) (ctypeOf infer finalUrl r)) ∧
      (r.status = 206 → r.contentRange = "" →
        headProbe infer finalUrl r =
          HeadOutcome.ok (r.contentLength.getD "0") (ctypeOf infer finalUrl r)) ∧
      (r.status = 200 →
        headProbe infer finalUrl r =
          HeadOutcome.ok (r.contentLength.getD "0") (ctypeOf infer finalUrl r)) ∧
      (r.status ≠ 206 → r.status ≠ 200 →
        headProbe infer finalUrl r = HeadOutcome.providerError r.status) ∧
      lookupQ (probeHeaders m3uUA clientUA) "Range" = some "bytes=0-1" := by
  refine ⟨?_, ?_, ?_, ?_, rfl⟩
  · intro h206 hcr
    rw [headProbe, if_pos h206, if_pos (by simpa using hcr)]
  · intro h206 hcr
    rw [headProbe, if_pos h206, if_neg (by simp [hcr])]
  · intro h200
    by_cases h206 : r.status = 206
    · rw [h200] at h206; cases h206
    · rw [headProbe, if_neg h206, if_pos h200]
  · intro h206 h200
    rw [headProbe, if_neg h206, if_neg h200]

/-- C7 witness: the amended contract applied to a 206 answer with a
Content-Range header, and to a 500 answer. -/
theorem c7_probe_contract_witness :
    headProbe (fun _ => none) "http://u" ⟨206, "bytes 0-1/12345", none, none⟩ =
        HeadOutcome.ok "12345" "video/mp4" ∧
      headProbe (fun _ => none) "http://u" ⟨404, "", none, none⟩ =
        HeadOutcome.providerError 404 := by
  constructor
  · have h := (c7_probe_contract (fun _ => none) "http://u"
      ⟨206, "bytes 0-1/12345", none, none⟩ "" "").1 rfl (by decide)
    rw [h]; decide
  · exact (c7_probe_contract (fun _ => none) "http://u"
      ⟨404, "", none, none⟩ "" "").2.2.2.1 (by decide) (by decide)

/-! ### Decimal rendering lemmas for session ids -/

theorem toDigitsCore_append : ∀ (fuel n : Nat) (ds : List Char),
    Nat.toDigitsCore 10 fuel n ds = Nat.toDigitsCore 10 fuel n [] ++ ds := by
  intro fuel
  induction fuel with
  | zero => intro n ds; rfl
  | succ f ih =>
    intro n ds
    by_cases hz : n / 10 = 0
    · simp [Nat.toDigitsCore, hz]
    · simp only [Nat.toDigitsCore, hz, if_false]
      rw [ih (n / 10) (Nat.digitChar (n % 10) :: ds),
        ih (n / 10) [Nat.digitChar (n % 10)], List.append_assoc]
      rfl

theorem digitChar_facts (m : Nat) (h : m < 10) :
    (Nat.digitChar m).isDigit = true ∧ (Nat.digitChar m).toNat - 48 = m := by
  interval_cases m <;> exact ⟨by decide, by decide⟩

theorem toDigitsCore_all_digits : ∀ (fuel n : Nat) (ds : List Char),
    (∀ c ∈ ds, c.isDigit = true) →
    ∀ c ∈ Nat.toDigitsCore 10 fuel n ds, c.isDigit = true := by
  intro fuel
  induction fuel with
  | zero => intro n ds h; exact h
  | succ f ih =>
    intro n ds h c hc
    have hd : (Nat.digitChar (n % 10)).isDigit = true :=
      (digitChar_facts (n % 10) (Nat.mod_lt n (by norm_num))).1
    by_cases hz : n / 10 = 0
    · simp only [Nat.toDigitsCore, hz, if_true] at hc
      rcases List.mem_cons.mp hc with rfl | hmem
      · exact hd
      · exact h c hmem
    · simp only [Nat.toDigitsCore, hz, if_false] at hc
      refine ih (n / 10) (Nat.digitChar (n % 10) :: ds) ?_ c hc
      intro x hx
      rcases List.mem_cons.mp hx with rfl | hmem
      · exact hd
      · exact h x hmem

theorem parseDec_toDigitsCore : ∀ (n : Nat), ∀ (fuel : Nat), n < 10 ^ fuel →
    parseDec (Nat.toDigitsCore 10 fuel n []) = n := by
  intro n
  induction n using Nat.strong_induction_on with
  | _ n ih =>
    intro fuel hf
    cases fuel with
    | zero =>
      have hn : n = 0 := by simpa using hf
      subst hn; rfl
    | succ f =>
      by_cases hz : n / 10 = 0
      · have hn : n < 10 := by omega
        have hcore : Nat.toDigitsCore 10 (f + 1) n [] = [Nat.digitChar (n % 10)] := by
          simp [Nat.toDigitsCore, hz]
        rw [hcore, Nat.mod_eq_of_lt hn]
        show 0 * 10 + ((Nat.digitChar n).toNat - 48) = n
        rw [Nat.zero_mul, Nat.zero_add]
        exact (digitChar_facts n hn).2
      · have hcore : Nat.toDigitsCore 10 (f + 1) n [] =
            Nat.toDigitsCore 10 f (n / 10) [] ++ [Nat.digitChar (n % 10)] := by
          simp only [Nat.toDigitsCore, hz, if_false]
          exact toDigitsCore_append f (n / 10) [Nat.digitChar (n % 10)]
        have hdiv : n / 10 < 10 ^ f := by
          have hpow : (10 : Nat) ^ (f + 1) = 10 ^ f * 10 := pow_succ 10 f
          rw [hpow] at hf
          exact (Nat.div_lt_iff_lt_mul (by norm_num)).mpr hf
        rw [hcore, parseDec, List.foldl_append]
        show parseDec (Nat.toDigitsCore 10 f (n / 10) []) * 10 +
          ((Nat.digitChar (n % 10)).toNat - 48) = n
        rw [ih (n / 10) (by omega) f hdiv,
          (digitChar_facts (n % 10) (Nat.mod_lt n (by omega))).2]
        omega

theorem parseDec_toDigits (n : Nat) : parseDec (Nat.toDigits 10 n) = n := by
  refine parseDec_toDigitsCore n (n + 1) ?_
  calc n < 10 ^ n := Nat.lt_pow_self (by norm_num) n
    _ ≤ 10 ^ (n + 1) := Nat.pow_le_pow_right (by norm_num) (Nat.le_succ n)

theorem underscore_not_mem_toDigits (n : Nat) :
    ('_' : Char) ∉ Nat.toDigits 10 n := by
  intro hmem
  have := toDigitsCore_all_digits (n + 1) n [] (by intro c hc; cases hc) '_' hmem
  simp [Char.isDigit] at this

theorem append_marker_inj : ∀ (a1 a2 b1 b2 : List Char),
    ('_' : Char) ∉ a1 → ('_' : Char) ∉ a2 →
    a1 ++ '_' :: b1 = a2 ++ '_' :: b2 → a1 = a2 ∧ b1 = b2 := by
  intro a1
  induction a1 with
  | nil =>
    intro a2 b1 b2 _ h2 he
    cases a2 with
    | nil => simpa using he
    | cons c t =>
      simp only [List.nil_append, List.cons_append, List.cons.injEq] at he
      obtain ⟨heq, -⟩ := he
      subst heq
      exact absurd (List.mem_cons_self _ _) h2
  | cons c t ih =>
    intro a2 b1 b2 h1 h2 he
    cases a2 with
    | nil =>
      simp only [List.cons_append, List.nil_append, List.cons.injEq] at he
      obtain ⟨heq, -⟩ := he
      subst heq
      exact absurd (List.mem_cons_self _ _) h1
    | cons c2 t2 =>
      simp only [List.cons_append, List.cons.injEq] at he
      obtain ⟨heq, hrest⟩ := he
      subst heq
      have h1t : ('_' : Char) ∉ t := fun hm => h1 (List.mem_cons_of_mem _ hm)
      have h2t : ('_' : Char) ∉ t2 := fun hm => h2 (List.mem_cons_of_mem _ hm)
      obtain ⟨ha, hb⟩ := ih t2 b1 b2 h1t h2t hrest
      exact ⟨by rw [ha], hb⟩

theorem genSessionIdL_inj (ms1 r1 ms2 r2 : Nat)
    (h : genSessionIdL ms1 r1 = genSessionIdL ms2 r2) :
    ms1 = ms2 ∧ r1 = r2 := by
  have e : ∀ ms r, genSessionIdL ms r =
      'v' :: 'o' :: 'd' :: '_' ::
        (Nat.toDigits 10 ms ++ '_' :: Nat.toDigits 10 r) := by
    intro ms r; rfl
  rw [e, e] at h
  simp only [List.cons.injEq, true_and] at h
  obtain ⟨hm, hr⟩ := append_marker_inj _ _ _ _
    (underscore_not_mem_toDigits ms1) (underscore_not_mem_toDigits ms2) h
  constructor
  · have hp := congrArg parseDec hm
    rwa [parseDec_toDigits, parseDec_toDigits] at hp
  · have hp := congrArg parseDec hr
    rwa [parseDec_toDigits, parseDec_toDigits] at hp

/-! ### Claim C9: session id uniqueness -/

/-- C9 (counterexample): a valid trace of 10000 consecutive generations —
time components non-decreasing, random suffixes within `randint(1000,
9999)` — in which every generation shares one millisecond and one random
draw produces repeated ids, so the generated id does not "never repeat"
across 10000 consecutive generations. -/
theorem c9_repeat_counterexample :
    (List.replicate 10000 ((1700000000000 : Nat), (1234 : Nat))).length =
        10000 ∧
      List.Chain' (fun a b => a ≤ b)
        ((List.replicate 10000 ((1700000000000 : Nat), (1234 : Nat))).map
          Prod.fst) ∧
      (List.replicate 10000 ((1700000000000 : Nat), (1234 : Nat))).all
        (fun g => decide (1000 ≤ g.2) && decide (g.2 ≤ 9999)) = true ∧
      ¬((List.replicate 10000 ((1700000000000 : Nat), (1234 : Nat))).map
          (fun g => genSessionId g.1 g.2)).Nodup := by
  refine ⟨by rw [List.length_replicate], ?_, ?_, ?_⟩
  · rw [List.map_replicate]
    exact List.chain'_replicate_of_rel 10000 (le_refl _)
  · simp only [List.all_eq_true]
    intro g hg
    rw [List.eq_of_mem_replicate hg]
    decide
  · rw [List.map_replicate, List.nodup_replicate]
    decide

/-- C9 (amended): the generated session id determines its millisecond and
random components, so any run of generations whose (time, random) pairs are
pairwise distinct — in particular any run with strictly increasing
millisecond timestamps — yields pairwise distinct ids; ids repeat exactly
when both components repeat. -/
theorem c9_distinct_pairs_give_distinct_ids (gens : List (Nat × Nat))
    (h : gens.Nodup) :
    (gens.map (fun g => genSessionId g.1 g.2)).Nodup := by
  refine List.Nodup.map ?_ h
  intro a b hab
  have hl : genSessionIdL a.1 a.2 = genSessionIdL b.1 b.2 :=
    congrArg String.data hab
  obtain ⟨h1, h2⟩ := genSessionIdL_inj _ _ _ _ hl
  exact Prod.ext h1 h2

/-- C9 witness: two generations one millisecond apart with the same random
suffix receive distinct ids. -/
theorem c9_distinct_pairs_give_distinct_ids_witness :
    ([((1700000000000 : Nat), (1234 : Nat)), (1700000000001, 1234)] :
        List (Nat × Nat)).Nodup ∧
      (([((1700000000000 : Nat), (1234 : Nat)), (1700000000001, 1234)] :
          List (Nat × Nat)).map (fun g => genSessionId g.1 g.2)).Nodup :=
  ⟨by decide,
    c9_distinct_pairs_give_distinct_ids
      [(1700000000000, 1234), (1700000000001, 1234)] (by decide)⟩
end Dispatcharr
